import Mathlib

/-!
Shallow embedding of hadoopy's local-execution engine
(`src/hadoopy/_local.py`, `src/hadoopy/_runner.py`).

The engine feeds serialized key-value records to a short-lived worker
process and drains its output through a dedicated relay process
(`_local_reader`), while `launch_local` orchestrates the
map / (sort) / combine / (sort) / reduce pipeline inside a temporary
working directory.
-/

namespace HadoopyLocal

/-- State of one stage run, seen across the two communicating processes of
`_run_task` / `_local_reader`:
`ws` are the records the worker has written to its output pipe that the
relay has not yet read; `q` is the relay's local `Queue.Queue()` FIFO
(head = oldest); `chan` is the in-flight buffer of the duplex
`multiprocessing.Pipe` from the relay's `q_send` to the orchestrator's
`q_recv` (head = oldest); `closed` records whether the relay has executed
`q_send.close()`; `out` are the records the stage generator has yielded. -/
structure RelayState (α : Type) where
  ws : List α
  q : List α
  chan : List α
  closed : Bool
  out : List α
deriving DecidableEq

/-- Python `Queue.put_nowait` on a queue of maxsize `m` succeeds unless
`0 < m` and the queue already holds `m` items (`Queue.Full` otherwise). -/
def relayPutSucceeds (maxsize qlen : Nat) : Bool :=
  decide (maxsize = 0 ∨ qlen < maxsize)

/-- The maxsize of the queue `_local_reader` actually constructs.  The
source reads `q = Queue.Queue()`: the `worker_queue_maxsize` argument is
received by `_local_reader` but never passed to the constructor, so the
queue is built with the default maxsize 0 (unbounded) for every value of
`worker_queue_maxsize`. -/
def localReaderQueueMaxsize (worker_queue_maxsize : Nat) : Nat :=
  0

/-- One interleaved step of the relay process (`_local_reader`) or of the
orchestrator side of `_run_task`, for a stage whose worker writes a fixed
finite record sequence.

* `relay_send`: inside the per-record loop, `while not q_recv.poll() and
  not q.empty(): q_send.send(q.get())` — fires only while the channel has
  no unread data and the local queue is non-empty.
* `relay_read`: `for num, kv in enumerate(tbfp_r)` reads the next worker
  record and `q.put_nowait(kv)` appends it to the local FIFO; the put is
  guarded by `Queue.Full` never being raised for the constructed queue.
* `relay_flush`: after end-of-stream, `while not q.empty():
  q_send.send(q.get())` pushes the remaining queue into the channel.
* `relay_close`: `q_send.close()` once the stream is exhausted and the
  queue drained.
* `main_recv`: `q_recv.recv()` (or the poll-guarded recv of the feed
  loop) removes the oldest in-flight record and the generator yields it;
  buffered data remains receivable after the peer closes. -/
inductive LocalStep (w : Nat) : RelayState α → RelayState α → Prop
  | relay_send (ws : List α) (x : α) (q' : List α) (out : List α) :
      LocalStep w ⟨ws, x :: q', [], false, out⟩ ⟨ws, q', [x], false, out⟩
  | relay_read (r : α) (ws' q chan out : List α) :
      relayPutSucceeds (localReaderQueueMaxsize w) q.length = true →
      LocalStep w ⟨r :: ws', q, chan, false, out⟩ ⟨ws', q ++ [r], chan, false, out⟩
  | relay_flush (x : α) (q' chan out : List α) :
      LocalStep w ⟨[], x :: q', chan, false, out⟩ ⟨[], q', chan ++ [x], false, out⟩
  | relay_close (chan out : List α) :
      LocalStep w ⟨[], [], chan, false, out⟩ ⟨[], [], chan, true, out⟩
  | main_recv (ws q : List α) (x : α) (chan' : List α) (closed : Bool) (out : List α) :
      LocalStep w ⟨ws, q, x :: chan', closed, out⟩ ⟨ws, q, chan', closed, out ++ [x]⟩

/-- Reflexive-transitive closure of `LocalStep`: the executions of one
stage run under every interleaving of the two processes. -/
inductive LocalReach (w : Nat) : RelayState α → RelayState α → Prop
  | refl (s : RelayState α) : LocalReach w s s
  | tail {s t u : RelayState α} : LocalReach w s t → LocalStep w t u → LocalReach w s u

/-- The state at stage start: the worker's (eventual) output `ws₀` still
unread, empty queue, empty channel, channel open, nothing yielded. -/
def initState (ws₀ : List α) : RelayState α :=
  ⟨ws₀, [], [], false, []⟩

/-- `cur_max_input = max_input if task == 'map' else None` in `_run_task`. -/
def curMaxInput (task : String) (max_input : Option Nat) : Option Nat :=
  if task = "map" then max_input else none

/-- The feed loop of `_run_task`:
`for num, kv in enumerate(kvs): if cur_max_input is not None and
cur_max_input <= num: break; ...; tbfp_w.write(kv)` — returns the records
actually written to the worker's input stream, starting at index `num`. -/
def feedLoop (cur_max_input : Option Nat) : Nat → List α → List α
  | _, [] => []
  | num, kv :: kvs =>
    match cur_max_input with
    | some k => if k ≤ num then [] else kv :: feedLoop cur_max_input (num + 1) kvs
    | none => kv :: feedLoop cur_max_input (num + 1) kvs

/-- The records `_run_task task kvs env` writes to the worker for a given
stage name and configured `max_input`. -/
def fedRecords (task : String) (max_input : Option Nat) (kvs : List α) : List α :=
  feedLoop (curMaxInput task max_input) 0 kvs

/-- The liveness check `if reader_process.exitcode: raise EOFError(...)`.
`exitcode` is `None` while the relay runs and its integer exit status once
it has terminated; Python truthiness makes the check fire exactly for a
nonzero status.  Returns the status the raised `EOFError` names, or `none`
when no error is raised. -/
def readerDied : Option Int → Option Int
  | none => none
  | some e => if e = 0 then none else some e

/-- What the orchestrator observes from the control channel on one
blocking `q_recv.recv()`: either the next record or `EOFError`
(channel closed and drained). -/
inductive RecvResult (α : Type) where
  | record (r : α)
  | eof
deriving DecidableEq

/-- The feed loop's per-record interaction with the relay, scripted by the
relay exit status observed just before each write: the check
`if reader_process.exitcode: raise EOFError('Reader process died[%s]')`
runs before `tbfp_w.write(kv)` on every iteration.  Returns the records
written before any failure and the exit status named by the raised
error, if any. -/
def feedWrites : List (Option Int × α) → List α × Option Int
  | [] => ([], none)
  | (ec, kv) :: rest =>
    match readerDied ec with
    | some e => ([], some e)
    | none =>
      let p := feedWrites rest
      (kv :: p.1, p.2)

/-- The drain tail of `_run_task` (`# Get any remaining values`): each
iteration first re-checks `reader_process.exitcode` (raising `EOFError`
naming the status when nonzero) and then blocks on `q_recv.recv()`,
yielding the record or ending normally on `EOFError` from a closed,
drained channel.  Scripted by the per-iteration (observed exit status,
recv outcome) pairs; returns the yielded records and the status named by
a raised error, if any. -/
def drainTail : List (Option Int × RecvResult α) → List α × Option Int
  | [] => ([], none)
  | (ec, rr) :: rest =>
    match readerDied ec with
    | some e => ([], some e)
    | none =>
      match rr with
      | RecvResult.eof => ([], none)
      | RecvResult.record r =>
        let p := drainTail rest
        (r :: p.1, p.2)

/-- The records a drain-tail script delivers: each successful
`q_recv.recv()` contributes its record. -/
def recvRecords (l : List (Option Int × RecvResult α)) : List α :=
  l.filterMap (fun p =>
    match p.2 with
    | RecvResult.record r => some r
    | RecvResult.eof => none)

/-- The externally visible actions of one `_run_task` generator run. -/
inductive TaskAction where
  | feedRecord
  | drainRecord
  | raiseError
  | closeChannel
  | joinRelay
  | killWorker
  | waitWorker
deriving DecidableEq

/-- How a `_run_task` generator run ends: normal exhaustion, the consumer
abandoning the iterator early (`GeneratorExit`), or an exception escaping
the body. -/
inductive TaskExit where
  | normal
  | earlyAbandon
  | exn
deriving DecidableEq

/-- Action trace of one `_run_task` run.  The body actions depend on how
the run ends; the `finally` clause `q_recv.close();
reader_process.join(); p.kill(); p.wait()` runs on every exit of the
generator, appending the same four actions in that order. -/
def runTaskTrace : TaskExit → List TaskAction
  | TaskExit.normal =>
      [TaskAction.feedRecord, TaskAction.drainRecord,
       TaskAction.closeChannel, TaskAction.joinRelay,
       TaskAction.killWorker, TaskAction.waitWorker]
  | TaskExit.earlyAbandon =>
      [TaskAction.feedRecord,
       TaskAction.closeChannel, TaskAction.joinRelay,
       TaskAction.killWorker, TaskAction.waitWorker]
  | TaskExit.exn =>
      [TaskAction.feedRecord, TaskAction.raiseError,
       TaskAction.closeChannel, TaskAction.joinRelay,
       TaskAction.killWorker, TaskAction.waitWorker]

/-- The four teardown actions of `_run_task`'s `finally` clause, in source
order. -/
def taskCleanup : List TaskAction :=
  [TaskAction.closeChannel, TaskAction.joinRelay,
   TaskAction.killWorker, TaskAction.waitWorker]

/-- The externally visible actions of one `launch_local` run that touch
the working directory or processes. -/
inductive JobAction where
  | mkTempDir
  | chdirTemp
  | copyFiles
  | makeExecutable
  | runStages
  | raiseErr
  | chdirOrig
  | removeTempDir
  | logTempDir
deriving DecidableEq

/-- How the `try` body of `launch_local` ends: the `else` branch returns
the result dict, or an exception propagates. -/
inductive JobExit where
  | success
  | raised
deriving DecidableEq

/-- Action trace of one `launch_local` run: `tempfile.mkdtemp()`,
`os.chdir(new_pwd)`, file copies, `_make_script_executable`, the staged
pipeline, then the `finally` clause `os.chdir(orig_pwd)` followed by
`shutil.rmtree(new_pwd)` when `remove_tempdir` else
`logging.info('Temporary directory not removed...')` — the same tail on
both exits. -/
def launchLocalTrace (e : JobExit) (remove_tempdir : Bool) : List JobAction :=
  [JobAction.mkTempDir, JobAction.chdirTemp, JobAction.copyFiles,
   JobAction.makeExecutable, JobAction.runStages] ++
  (match e with
   | JobExit.success => []
   | JobExit.raised => [JobAction.raiseErr]) ++
  [JobAction.chdirOrig] ++
  (if remove_tempdir then [JobAction.removeTempDir] else [JobAction.logTempDir])

/-- Directory-visible state of the orchestrating process: its current
working directory and whether the temporary directory exists. -/
structure DirState where
  cwd : String
  tempExists : Bool
deriving DecidableEq

/-- Effect of one `JobAction` on the directory state, for a run whose
original working directory is `orig` and whose fresh temporary directory
is `temp`. -/
def applyJobAction (orig temp : String) (s : DirState) : JobAction → DirState
  | JobAction.mkTempDir => { s with tempExists := true }
  | JobAction.chdirTemp => { s with cwd := temp }
  | JobAction.chdirOrig => { s with cwd := orig }
  | JobAction.removeTempDir => { s with tempExists := false }
  | _ => s

/-- Directory state after a `launch_local` run, starting in `orig` with no
temporary directory yet. -/
def jobFinalState (e : JobExit) (remove_tempdir : Bool) (orig temp : String) : DirState :=
  (launchLocalTrace e remove_tempdir).foldl (applyJobAction orig temp) ⟨orig, false⟩

/-- Modelled from the spec: `hadoopy.Test.sort_kv` (not under `src/`) is
the sort barrier, a stable sort on the key only.  `insertKV` places a
record before the first record of larger-or-equal key, i.e. after every
record of strictly smaller key; since `sort_kv` inserts each record into
the sorted tail built from the records that follow it, records with
equal keys keep their original relative order. -/
def insertKV [LinearOrder K] (x : K × V) : List (K × V) → List (K × V)
  | [] => [x]
  | y :: ys => if x.1 ≤ y.1 then x :: y :: ys else y :: insertKV x ys

/-- Modelled from the spec: stable sort-by-key over materialized records
(`hadoopy.Test.sort_kv`, code not under `src/`). -/
def sort_kv [LinearOrder K] : List (K × V) → List (K × V)
  | [] => []
  | x :: xs => insertKV x (sort_kv xs)

/-- The staged pipeline of `launch_local` (lines 157-165): given the
script's declared task set and the per-stage transformation `run`
(each `list(_run_task(...))` materialization), it mirrors
`if 'reduce' in script_info['tasks']: kvs = list(_run_task('map', ...));
if 'combine' in ...: kvs = sort_kv(kvs); kvs = list(_run_task('combine',
...)); kvs = sort_kv(kvs); kvs = _run_task('reduce', ...) else:
kvs = _run_task('map', ...)`. -/
def launchLocalPipeline [LinearOrder K] (tasks : List String)
    (run : String → List (K × V) → List (K × V)) (in_kvs : List (K × V)) :
    List (K × V) :=
  if "reduce" ∈ tasks then
    let kvs := run "map" in_kvs
    let kvs := if "combine" ∈ tasks then run "combine" (sort_kv kvs) else kvs
    run "reduce" (sort_kv kvs)
  else
    run "map" in_kvs

/-- `_check_requirements` from `_runner.py`: required file names are
compared by basename (`os.path.basename`, modelled as an arbitrary
function since it is Python stdlib) against the caller-supplied `files`;
required environment keys against the supplied `cmdenvs` keys.  Both
missing collections are computed, each is logged in full, and only then
is a single `ValueError` raised when either is non-empty. -/
def check_requirements (basename : String → String)
    (files cmdenvs required_files required_cmdenvs : List String) :
    Except (List String × List String) Unit :=
  let missing_files := (required_files.map basename).filter (fun x => !(files.contains x))
  let missing_cmdenvs := required_cmdenvs.filter (fun x => !(cmdenvs.contains x))
  if missing_files.isEmpty && missing_cmdenvs.isEmpty then
    Except.ok ()
  else
    Except.error (missing_files, missing_cmdenvs)

/-- The validation-relevant milestones of `launch` (`_runner.py`), in
control-flow order: the descriptor query `_parse_info` (line 153), the
requirement validation `_check_requirements` (line 157), command
construction, and the `subprocess.Popen` that launches the job
(line 270). -/
inductive LaunchAction where
  | parseInfo
  | checkRequirements
  | buildCmd
  | spawnProcess
deriving DecidableEq, BEq

/-- Milestone order of `launch`. -/
def launchActions : List LaunchAction :=
  [LaunchAction.parseInfo, LaunchAction.checkRequirements,
   LaunchAction.buildCmd, LaunchAction.spawnProcess]

/-- The validation-relevant milestones of `launch_local` (`_local.py`),
in control-flow order: the descriptor query `_parse_info` (line 79),
stage command construction (`cmd = ('%s %s %s' % ...)` in `_run_task`,
line 98), and the stage worker spawn (`subprocess.Popen`, line 107).
No `_check_requirements` call appears anywhere in `launch_local`: the
`required_files` and `required_cmdenvs` entries of the parsed descriptor
are never read, and stage workers are spawned regardless of what the
caller supplied. -/
def launchLocalActions : List LaunchAction :=
  [LaunchAction.parseInfo, LaunchAction.buildCmd, LaunchAction.spawnProcess]

/-- Modelled from the spec: the external persistence pair
`hadoopy.writetb` / `hadoopy.readtb` (code not under `src/`) as a named
store of record sequences — `writetb` persists a sequence under a name. -/
def writetb (store : String → Option (List α)) (name : String) (kvs : List α) :
    String → Option (List α) :=
  fun n => if n = name then some kvs else store n

/-- Modelled from the spec: `hadoopy.readtb` reads back the sequence
persisted under a name (code not under `src/`). -/
def readtb (store : String → Option (List α)) (name : String) : List α :=
  (store name).getD []

/-- The result contract of `launch_local` (lines 169-175): with
`out_name = None` the final stage's sequence is returned directly under
the result's output key (`out['output'] = iter(list(kvs))`); with a
destination, the sequence is persisted (`hadoopy.writetb(out_name, kvs)`)
and a fresh read sequence over the destination is returned
(`out['output'] = hadoopy.readtb(out_name)`).  Returns the updated store
and the sequence handed back under the output key. -/
def launchLocalOutput (out_name : Option String)
    (store : String → Option (List α)) (kvs : List α) :
    (String → Option (List α)) × List α :=
  match out_name with
  | none => (store, kvs)
  | some name =>
    let store' := writetb store name kvs
    (store', readtb store' name)

/-- Safety invariant of a stage run: at every state, the records already
yielded, followed by the channel backlog, the relay queue and the unread
worker output, are exactly the worker-written sequence; and after the
relay closes its channel end, both its stream and queue are exhausted. -/
theorem localReach_inv {α : Type} {w : Nat} {ws₀ : List α} {s₀ s : RelayState α}
    (h : LocalReach w s₀ s)
    (h0 : s₀.out ++ s₀.chan ++ s₀.q ++ s₀.ws = ws₀ ∧
      (s₀.closed = true → s₀.ws = [] ∧ s₀.q = [])) :
    s.out ++ s.chan ++ s.q ++ s.ws = ws₀ ∧
      (s.closed = true → s.ws = [] ∧ s.q = []) := by
  induction h with
  | refl => exact h0
  | tail hreach hstep ih =>
    obtain ⟨h1, h2⟩ := ih
    cases hstep with
    | relay_send ws x q' out =>
      exact ⟨by simpa using h1, by simp⟩
    | relay_read r ws' q chan out hput =>
      refine ⟨?_, by simp⟩
      simpa [List.append_assoc] using h1
    | relay_flush x q' chan out =>
      refine ⟨?_, by simp⟩
      simpa [List.append_assoc] using h1
    | relay_close chan out =>
      exact ⟨by simpa using h1, fun _ => ⟨rfl, rfl⟩⟩
    | main_recv ws q x chan' closed out =>
      refine ⟨?_, fun hc => h2 hc⟩
      simpa [List.append_assoc] using h1

/-- C1: the records a stage yields are exactly the records the worker
wrote, in the order the worker wrote them.  At every reachable state of a
stage run the yielded sequence is a prefix of the worker-written sequence
(never reordered, duplicated, or invented), and once the relay has closed
the channel and the channel is drained (the blocking receive reports
end-of-file), the yielded sequence equals the worker-written sequence
(never dropped).  For an identity-map stage the worker-written sequence
is the input sequence, so output equals input in the same order. -/
theorem stage_output_fifo {α : Type} (w : Nat) (ws₀ : List α) (s : RelayState α)
    (h : LocalReach w (initState ws₀) s) :
    (∃ t, s.out ++ t = ws₀) ∧
      (s.closed = true → s.chan = [] → s.out = ws₀) := by
  obtain ⟨h1, h2⟩ := @localReach_inv α w ws₀ (initState ws₀) s h (by simp [initState])
  refine ⟨⟨s.chan ++ s.q ++ s.ws, by simpa [List.append_assoc] using h1⟩, ?_⟩
  intro hc he
  obtain ⟨hw, hq⟩ := h2 hc
  rw [he, hw, hq] at h1
  simpa using h1

/-- Witness for C1: a complete two-record run, scheduled exactly as the
source's deterministic relay would run it, yields both records in order. -/
theorem stage_output_fifo_witness :
    (⟨[], [], [], true, [1, 2]⟩ : RelayState Nat).out = [1, 2] := by
  have h0 : LocalReach 0 (initState [1, 2]) (initState [1, 2]) :=
    LocalReach.refl _
  have h1 : LocalReach 0 (initState [1, 2]) (⟨[2], [1], [], false, []⟩ : RelayState Nat) :=
    LocalReach.tail h0 (LocalStep.relay_read 1 [2] [] [] [] rfl)
  have h2 : LocalReach 0 (initState [1, 2]) (⟨[2], [], [1], false, []⟩ : RelayState Nat) :=
    LocalReach.tail h1 (LocalStep.relay_send [2] 1 [] [])
  have h3 : LocalReach 0 (initState [1, 2]) (⟨[], [2], [1], false, []⟩ : RelayState Nat) :=
    LocalReach.tail h2 (LocalStep.relay_read 2 [] [] [1] [] rfl)
  have h4 : LocalReach 0 (initState [1, 2]) (⟨[], [], [1, 2], false, []⟩ : RelayState Nat) :=
    LocalReach.tail h3 (LocalStep.relay_flush 2 [] [1] [])
  have h5 : LocalReach 0 (initState [1, 2]) (⟨[], [], [1, 2], true, []⟩ : RelayState Nat) :=
    LocalReach.tail h4 (LocalStep.relay_close [1, 2] [])
  have h6 : LocalReach 0 (initState [1, 2]) (⟨[], [], [2], true, [1]⟩ : RelayState Nat) :=
    LocalReach.tail h5 (LocalStep.main_recv [] [] 1 [2] true [])
  have h7 : LocalReach 0 (initState [1, 2]) (⟨[], [], [], true, [1, 2]⟩ : RelayState Nat) :=
    LocalReach.tail h6 (LocalStep.main_recv [] [] 2 [] true [1])
  exact (stage_output_fifo 0 [1, 2] _ h7).2 rfl rfl

/-- C3: the claim that the relay queue never holds more than the
configured capacity `c ≥ 1` fails on the code.  `_local_reader` builds
`q = Queue.Queue()` without passing `worker_queue_maxsize`, so the queue
is unbounded for every configured capacity: with capacity 1, a run in
which the worker writes three records while the orchestrator has not yet
drained the channel (the code's own deterministic schedule) reaches a
state whose local queue holds two records. -/
theorem relay_queue_unbounded_bug :
    (∀ c : Nat, localReaderQueueMaxsize c = 0) ∧
    LocalReach 1 (initState [1, 2, 3])
      (⟨[], [2, 3], [1], false, []⟩ : RelayState Nat) ∧
    ¬((⟨[], [2, 3], [1], false, []⟩ : RelayState Nat).q.length ≤ 1) := by
  refine ⟨fun _ => rfl, ?_, by decide⟩
  have h0 : LocalReach 1 (initState [1, 2, 3]) (initState [1, 2, 3]) :=
    LocalReach.refl _
  have h1 : LocalReach 1 (initState [1, 2, 3]) (⟨[2, 3], [1], [], false, []⟩ : RelayState Nat) :=
    LocalReach.tail h0 (LocalStep.relay_read 1 [2, 3] [] [] [] rfl)
  have h2 : LocalReach 1 (initState [1, 2, 3]) (⟨[2, 3], [], [1], false, []⟩ : RelayState Nat) :=
    LocalReach.tail h1 (LocalStep.relay_send [2, 3] 1 [] [])
  have h3 : LocalReach 1 (initState [1, 2, 3]) (⟨[3], [2], [1], false, []⟩ : RelayState Nat) :=
    LocalReach.tail h2 (LocalStep.relay_read 2 [3] [] [1] [] rfl)
  exact LocalReach.tail h3 (LocalStep.relay_read 3 [] [2] [1] [] rfl)

/-- The feed loop under a configured limit `k` writes the input records
whose index has not yet reached `k`. -/
theorem feedLoop_some_eq_take {α : Type} (k : Nat) (kvs : List α) :
    ∀ n, feedLoop (some k) n kvs = kvs.take (k - n) := by
  induction kvs with
  | nil => intro n; simp [feedLoop]
  | cons kv kvs ih =>
    intro n
    by_cases h : k ≤ n
    · have hz : k - n = 0 := by omega
      simp [feedLoop, h, hz]
    · have hs : k - n = (k - (n + 1)) + 1 := by omega
      simp [feedLoop, h, hs, ih]

/-- With no configured limit the feed loop writes every input record. -/
theorem feedLoop_none_eq_id {α : Type} (kvs : List α) :
    ∀ n, feedLoop none n kvs = kvs := by
  induction kvs with
  | nil => intro n; simp [feedLoop]
  | cons kv kvs ih => intro n; simp [feedLoop, ih]

/-- C4: with a configured maximum-input-count `K`, the map stage's worker
is sent exactly the first `K` input records (`kvs.take K`) and nothing
beyond them; the limit is applied only when the stage is `"map"`
(`cur_max_input = max_input if task == 'map' else None`), so combine and
reduce stages — and a map stage without a limit — receive their full
input. -/
theorem map_input_limit {α : Type} (K : Nat) (kvs : List α) (task : String)
    (max_input : Option Nat) :
    fedRecords "map" (some K) kvs = kvs.take K ∧
    (task ≠ "map" → fedRecords task max_input kvs = kvs) ∧
    fedRecords "map" none kvs = kvs := by
  refine ⟨?_, ?_, ?_⟩
  · have h := feedLoop_some_eq_take K kvs 0
    simpa [fedRecords, curMaxInput] using h
  · intro h
    simp [fedRecords, curMaxInput, h, feedLoop_none_eq_id]
  · simp [fedRecords, curMaxInput, feedLoop_none_eq_id]

/-- Witness for C4: a limit of 2 truncates a map stage's three-record
input, while a combine stage under the same configuration receives all
three records. -/
theorem map_input_limit_witness :
    fedRecords "map" (some 2) [1, 2, 3] = [1, 2] ∧
      fedRecords "combine" (some 2) [1, 2, 3] = [1, 2, 3] := by
  have h := map_input_limit 2 [1, 2, 3] "combine" (some 2)
  exact ⟨h.1, h.2.1 (by decide)⟩

/-- C5: relay death is fatal and detected at both check sites.  If the
relay's observed exit status is a nonzero `e` just before the `i`-th
write of the feed loop, the stage raises the worker-died condition naming
`e` after having written exactly the first `i` records; if it is observed
before a blocking receive of the drain tail, the stage raises the same
condition there.  The failure is the final answer of the scripted run —
nothing is retried. -/
theorem relay_death_raises {α : Type} (pre : List (Option Int × α)) (e : Int)
    (kv : α) (rest : List (Option Int × α))
    (pre2 : List (Option Int × RecvResult α)) (rr : RecvResult α)
    (rest2 : List (Option Int × RecvResult α))
    (hpre : ∀ p ∈ pre, readerDied p.1 = none)
    (he : e ≠ 0)
    (hpre2 : ∀ p ∈ pre2, readerDied p.1 = none ∧ p.2 ≠ RecvResult.eof) :
    feedWrites (pre ++ (some e, kv) :: rest) = (pre.map Prod.snd, some e) ∧
    drainTail (pre2 ++ (some e, rr) :: rest2) = (recvRecords pre2, some e) := by
  constructor
  · induction pre with
    | nil => simp [feedWrites, readerDied, he]
    | cons p pre ih =>
      have hp : readerDied p.1 = none := hpre p (by simp)
      have ih2 := ih (fun p hp2 => hpre p (by simp [hp2]))
      cases p with
      | mk ec kv2 =>
        simp only [List.cons_append, feedWrites]
        rw [show readerDied (ec, kv2).1 = none from hp]
        simp [ih2]
  · induction pre2 with
    | nil => simp [drainTail, readerDied, he, recvRecords]
    | cons p pre2 ih =>
      obtain ⟨hp, hr⟩ := hpre2 p (by simp)
      have ih2 := ih (fun p hp2 => hpre2 p (by simp [hp2]))
      cases p with
      | mk ec rr2 =>
        cases rr2 with
        | eof => exact absurd rfl hr
        | record r =>
          simp only [List.cons_append, drainTail]
          rw [show readerDied (ec, RecvResult.record r).1 = none from hp]
          simp [ih2, recvRecords]

/-- Witness for C5: death with status 9 after one successful feed write,
and after one successful drain receive, both raise the worker-died
condition naming status 9. -/
theorem relay_death_raises_witness :
    feedWrites [((none : Option Int), (5 : Nat)), (some 9, 6)] = ([5], some 9) ∧
      drainTail [((some 0 : Option Int), RecvResult.record (7 : Nat)), (some 9, RecvResult.eof)] =
        ([7], some 9) := by
  have h := relay_death_raises [((none : Option Int), (5 : Nat))] 9 6 []
    [((some 0 : Option Int), RecvResult.record (7 : Nat))] RecvResult.eof []
    (by decide) (by decide) (by decide)
  exact h

/-- C10: the worker-died check tests only Python truthiness of the
relay's exit status, so a relay that exits with status 0 is never treated
as dead: every iteration of the drain tail observes status 0, the
blocking receive's end-of-file is taken as normal completion, and the
stage's output simply ends with the records received so far and no
error — indistinguishable from a successfully completed stage.  Both
checkable observations (`exitcode` of 0 and of `None`) leave the check
silent. -/
theorem clean_relay_exit_no_error {α : Type} (recs : List α) :
    drainTail ((recs.map (fun r => ((some 0 : Option Int), RecvResult.record r))) ++
        [((some 0 : Option Int), RecvResult.eof)]) = (recs, none) ∧
      readerDied (some 0) = none ∧ readerDied none = none := by
  refine ⟨?_, rfl, rfl⟩
  induction recs with
  | nil => simp [drainTail, readerDied]
  | cons r recs ih => simp [drainTail, readerDied, ih]

/-- C6: on every exit of a stage run — normal completion, early
abandonment by the consumer, or an exception — the trace ends with the
same four cleanup actions in source order: close the locally owned
control-channel end, join the drain relay, forcibly terminate the worker,
then wait on it; and no cleanup action occurs anywhere else in the
trace. -/
theorem run_task_cleanup_all_exits (e : TaskExit) :
    ∃ pre, runTaskTrace e = pre ++ taskCleanup ∧ ∀ a ∈ pre, a ∉ taskCleanup := by
  cases e with
  | normal =>
    exact ⟨[TaskAction.feedRecord, TaskAction.drainRecord], by decide, by decide⟩
  | earlyAbandon =>
    exact ⟨[TaskAction.feedRecord], by decide, by decide⟩
  | exn =>
    exact ⟨[TaskAction.feedRecord, TaskAction.raiseError], by decide, by decide⟩

/-- Witness for C10: a relay that exited cleanly (status 0) after one
record ends the drain without error. -/
theorem clean_relay_exit_witness :
    drainTail [((some 0 : Option Int), RecvResult.record (5 : Nat)),
        ((some 0 : Option Int), RecvResult.eof)] = ([5], none) := by
  have h := clean_relay_exit_no_error [(5 : Nat)]
  simpa using h.1

/-- Witness for C6: the cleanup suffix of a normally completing run. -/
theorem run_task_cleanup_witness :
    ∃ pre, runTaskTrace TaskExit.normal = pre ++ taskCleanup ∧
      ∀ a ∈ pre, a ∉ taskCleanup :=
  run_task_cleanup_all_exits TaskExit.normal

/-- C7: `launch_local` creates a fresh temporary working directory and
switches into it (after the first two trace actions the working directory
is the temporary one and it exists); at job end, whether the run returned
or raised, the original working directory is restored and the temporary
directory is removed exactly when `remove_tempdir` holds — with retention
requested it still exists and its path is logged instead. -/
theorem tempdir_lifecycle (e : JobExit) (remove_tempdir : Bool) (orig temp : String) :
    (jobFinalState e remove_tempdir orig temp).cwd = orig ∧
    ((jobFinalState e remove_tempdir orig temp).tempExists = !remove_tempdir) ∧
    (((launchLocalTrace e remove_tempdir).take 2).foldl (applyJobAction orig temp)
        ⟨orig, false⟩ = (⟨temp, true⟩ : DirState)) ∧
    ((launchLocalTrace e remove_tempdir).getLast? =
      some (if remove_tempdir then JobAction.removeTempDir else JobAction.logTempDir)) := by
  cases e <;> cases remove_tempdir <;>
    simp [jobFinalState, launchLocalTrace, applyJobAction]

/-- Witness for C7: a raising run with retention requested restores the
original directory, keeps the temporary directory, and logs its path. -/
theorem tempdir_lifecycle_witness :
    (jobFinalState JobExit.raised false "orig" "tmp").cwd = "orig" ∧
      (jobFinalState JobExit.raised false "orig" "tmp").tempExists = !false ∧
      (((launchLocalTrace JobExit.raised false).take 2).foldl
          (applyJobAction "orig" "tmp") ⟨"orig", false⟩ = (⟨"tmp", true⟩ : DirState)) ∧
      ((launchLocalTrace JobExit.raised false).getLast? =
        some (if false then JobAction.removeTempDir else JobAction.logTempDir)) :=
  tempdir_lifecycle JobExit.raised false "orig" "tmp"

/-- C2: the pipeline driven by the declared task set.  With reduce and
combine declared, the result is reduce applied to the key-sorted output
of combine applied to the key-sorted output of map; with reduce but no
combine, the single sort barrier sits between map and reduce; with no
reduce declared, the result is map's output directly — and the combine
stage is never invoked, witnessed by the result being unchanged under any
reinterpretation of the combine stage alone. -/
theorem pipeline_orchestration {K V : Type} [LinearOrder K] (tasks : List String)
    (run : String → List (K × V) → List (K × V)) (in_kvs : List (K × V)) :
    ("reduce" ∈ tasks → "combine" ∈ tasks →
      launchLocalPipeline tasks run in_kvs =
        run "reduce" (sort_kv (run "combine" (sort_kv (run "map" in_kvs))))) ∧
    ("reduce" ∈ tasks → "combine" ∉ tasks →
      launchLocalPipeline tasks run in_kvs =
        run "reduce" (sort_kv (run "map" in_kvs))) ∧
    ("reduce" ∉ tasks → launchLocalPipeline tasks run in_kvs = run "map" in_kvs) ∧
    ("reduce" ∉ tasks → ∀ run2 : String → List (K × V) → List (K × V),
      (∀ t, t ≠ "combine" → run2 t = run t) →
      launchLocalPipeline tasks run2 in_kvs = launchLocalPipeline tasks run in_kvs) := by
  refine ⟨?_, ?_, ?_, ?_⟩
  · intro h1 h2
    simp [launchLocalPipeline, h1, h2]
  · intro h1 h2
    simp [launchLocalPipeline, h1, h2]
  · intro h1
    simp [launchLocalPipeline, h1]
  · intro h1 run2 hr
    have hm : run2 "map" = run "map" := hr "map" (by decide)
    simp [launchLocalPipeline, h1, hm]

/-- Witness for C2: a map+reduce identity script on one record runs map,
one sort barrier, then reduce. -/
theorem pipeline_orchestration_witness :
    launchLocalPipeline ["map", "reduce"] (fun _ kvs => kvs)
        [((1 : Nat), (2 : Nat))] = sort_kv [((1 : Nat), (2 : Nat))] := by
  have h := pipeline_orchestration ["map", "reduce"]
    (fun _ kvs => (kvs : List (Nat × Nat))) [(1, 2)]
  simpa using h.2.1 (by decide) (by decide)

/-- Supporting theorem: `_check_requirements` itself does collect
everything before failing.  It computes the full collections of missing
required files (compared by basename) and missing required environment
keys, succeeds exactly when both are empty, and otherwise fails with both
complete collections at once: an item is reported missing iff it is the
basename of some declared required file not among the supplied files
(resp. a declared required key not among the supplied keys).  In the
cluster launcher `launch` this validation runs strictly before the
process spawn — but `launch` is the only caller; see
`launch_local_skips_requirements`. -/
theorem check_requirements_collects_all (basename : String → String)
    (files cmdenvs required_files required_cmdenvs : List String) :
    (check_requirements basename files cmdenvs required_files required_cmdenvs =
        Except.ok () ↔
      ((required_files.map basename).filter (fun x => !(files.contains x)) = [] ∧
        required_cmdenvs.filter (fun x => !(cmdenvs.contains x)) = [])) ∧
    (∀ mf mc,
      check_requirements basename files cmdenvs required_files required_cmdenvs =
          Except.error (mf, mc) →
      (∀ x, x ∈ mf ↔ ((∃ r ∈ required_files, basename r = x) ∧ x ∉ files)) ∧
      (∀ x, x ∈ mc ↔ (x ∈ required_cmdenvs ∧ x ∉ cmdenvs))) ∧
    launchActions.indexOf LaunchAction.checkRequirements <
      launchActions.indexOf LaunchAction.spawnProcess := by
  refine ⟨?_, ?_, by decide⟩
  · unfold check_requirements
    by_cases hb : (((required_files.map basename).filter (fun x => !(files.contains x))).isEmpty &&
        (required_cmdenvs.filter (fun x => !(cmdenvs.contains x))).isEmpty) = true
    · rw [if_pos hb]
      obtain ⟨hb1, hb2⟩ := Bool.and_eq_true_iff.mp hb
      simp only [List.isEmpty_iff] at hb1 hb2
      exact iff_of_true rfl ⟨hb1, hb2⟩
    · rw [if_neg hb]
      rw [Bool.and_eq_true_iff] at hb
      simp only [List.isEmpty_iff] at hb
      constructor
      · intro h
        exact Except.noConfusion h
      · intro h
        exact absurd h hb
  · intro mf mc h
    unfold check_requirements at h
    by_cases hb : (((required_files.map basename).filter (fun x => !(files.contains x))).isEmpty &&
        (required_cmdenvs.filter (fun x => !(cmdenvs.contains x))).isEmpty) = true
    · rw [if_pos hb] at h
      exact Except.noConfusion h
    · rw [if_neg hb] at h
      rw [Except.error.injEq, Prod.mk.injEq] at h
      obtain ⟨hmf, hmc⟩ := h
      constructor
      · intro x
        rw [← hmf]
        simp [List.mem_filter]
      · intro x
        rw [← hmc]
        simp [List.mem_filter]

/-- Instance of the supporting theorem: with one required file missing by
basename and one required key missing, both are reported together in the
single failure of `_check_requirements`. -/
theorem check_requirements_collects_all_instance :
    ("b" ∈ (["b"] : List String) ↔
        ((∃ r ∈ (["a", "b"] : List String), (fun s => s) r = "b") ∧
          "b" ∉ (["a"] : List String))) ∧
      ("K" ∈ (["K"] : List String) ↔
        ("K" ∈ (["K"] : List String) ∧ "K" ∉ ([] : List String))) := by
  have h := check_requirements_collects_all (fun s => s) ["a"] [] ["a", "b"] ["K"]
  have h2 := h.2.1 ["b"] ["K"] rfl
  exact ⟨h2.1 "b", h2.2 "K"⟩

/-- C8: the claim fails on the local engine, and the engine is the slip.
`launch_local` spawns stage workers without ever validating declared
requirements: its milestone trace contains the descriptor query and the
worker spawn but no `_check_requirements` call, so a job whose
descriptor declares a required environment key the caller did not supply
is launched anyway instead of failing first.  `_check_requirements`
(reachable only through the cluster launcher `launch`) would have
collected and reported that missing key, as evaluating it at the failing
input shows. -/
theorem launch_local_skips_requirements :
    LaunchAction.checkRequirements ∉ launchLocalActions ∧
    LaunchAction.spawnProcess ∈ launchLocalActions ∧
    check_requirements (fun s => s) [] [] [] ["NEEDED_KEY"] =
      Except.error ([], ["NEEDED_KEY"]) := by
  exact ⟨by simp [launchLocalActions], by simp [launchLocalActions], rfl⟩

/-- C9: the result contract of `launch_local`.  With no destination the
final stage's sequence itself is handed back under the output key and the
store is untouched; with a destination, the sequence is persisted under
that name, the handed-back sequence is a fresh read over the destination
(and equals the persisted records), and no other destination is
affected. -/
theorem job_result_contract {α : Type} (store : String → Option (List α)) (kvs : List α) :
    launchLocalOutput none store kvs = (store, kvs) ∧
    (∀ name, (launchLocalOutput (some name) store kvs).1 name = some kvs ∧
      (launchLocalOutput (some name) store kvs).2 = kvs ∧
      (∀ m, m ≠ name → (launchLocalOutput (some name) store kvs).1 m = store m)) := by
  refine ⟨rfl, fun name => ⟨?_, ?_, fun m hm => ?_⟩⟩
  · simp [launchLocalOutput, writetb]
  · simp [launchLocalOutput, writetb, readtb]
  · simp [launchLocalOutput, writetb, hm]

/-- Witness for C9: persisting one record under a destination leaves an
unrelated destination untouched. -/
theorem job_result_contract_witness :
    (launchLocalOutput (some "out") (fun _ => (none : Option (List Nat))) [1]).1 "other" =
      none := by
  have h := job_result_contract (fun _ => (none : Option (List Nat))) [1]
  exact (h.2 "out").2.2 "other" (by decide)

end HadoopyLocal
